import Mathlib

/-!
Verification of the book catalog and content store of the `audio_book`
repository (`src/services/BookStorage.ts`) and of the chapter-heading
heuristic of the reader screen (`src/app/reader/[id].tsx`).

The TypeScript code is shallowly embedded: strings are Lean `String`
(lists of characters; JS UTF-16 `length` and Lean code-point length agree
on the BMP characters the program handles), the `AsyncStorage` key-value
entry and the filesystem are explicit environment records, asynchronous
functions that may `throw` return `Except`, and the module-level
`contentCache` is threaded explicitly.
-/

namespace AudioBook

/-! JS string primitives used by the code -/

/-- Whitespace as removed by JS `String.prototype.trim` (ASCII whitespace,
NBSP, BOM and the Unicode space/line separators). -/
def jsWhitespace (c : Char) : Bool :=
  c = ' ' || c = '\t' || c = '\n' || c = '\r' ||
  c.val = 0x0b || c.val = 0x0c || c.val = 0xa0 || c.val = 0x1680 ||
  (0x2000 ≤ c.val && c.val ≤ 0x200a) ||
  c.val = 0x2028 || c.val = 0x2029 || c.val = 0x202f ||
  c.val = 0x205f || c.val = 0x3000 || c.val = 0xfeff

/-- JS `trim` on a list of characters. -/
def jsTrim (s : List Char) : List Char :=
  ((s.dropWhile jsWhitespace).reverse.dropWhile jsWhitespace).reverse

/-- JS `toUpperCase`, restricted to the ASCII range (CJK characters, digits
and punctuation are fixed points, which is all the program relies on). -/
def jsUpper (c : Char) : Char :=
  if 'a' ≤ c && c ≤ 'z' then Char.ofNat (c.toNat - 32) else c

/-- JS `toLowerCase`, restricted to the ASCII range. -/
def jsLower (c : Char) : Char :=
  if 'A' ≤ c && c ≤ 'Z' then Char.ofNat (c.toNat + 32) else c

/-- Does `hay` start with `pat`? -/
def startsWithL : List Char → List Char → Bool
  | [], _ => true
  | _ :: _, [] => false
  | p :: ps, c :: cs => p = c && startsWithL ps cs

/-- JS `hay.includes(needle)`: `needle` occurs as a contiguous substring. -/
def containsL (needle : List Char) : List Char → Bool
  | [] => startsWithL needle []
  | c :: cs => startsWithL needle (c :: cs) || containsL needle cs

/-- JS `s.includes(sub)` on Lean strings. -/
def includesStr (s sub : String) : Bool :=
  containsL sub.toList s.toList

/-- JS `content.split('\n')` (always returns at least one piece;
`"".split('\n')` is `[""]`). -/
def splitNl : List Char → List (List Char)
  | [] => [[]]
  | c :: rest =>
    match splitNl rest with
    | [] => [[c]]
    | l :: ls => if c = '\n' then [] :: l :: ls else (c :: l) :: ls

/-- JS `fileUri.split('.')`. -/
def splitDot : List Char → List (List Char)
  | [] => [[]]
  | c :: rest =>
    match splitDot rest with
    | [] => [[c]]
    | l :: ls => if c = '.' then [] :: l :: ls else (c :: l) :: ls

/-! Chapter-heading heuristic (`src/app/reader/[id].tsx`, loadBook)

The reader classifies a line as a chapter heading when its trimmed form is
a short non-empty line that is either all-uppercase or matches the regex
`/第.{1,3}[章节卷篇]|chapter|section|part/i`.  The regex test is embedded
as an existence-of-a-match predicate over the characters of the line. -/

/-- The character class `[章节卷篇]`. -/
def markerChar (c : Char) : Bool :=
  c = '章' || c = '节' || c = '卷' || c = '篇'

/-- JS regex `.` without the `s` flag: any character except a line
terminator. -/
def jsDot (c : Char) : Bool :=
  !(c = '\n' || c = '\r' || c.val = 0x2028 || c.val = 0x2029)

/-- Does `.{1,3}[章节卷篇]` match a prefix of the list? -/
def diTail : List Char → Bool
  | a :: m1 :: rest2 =>
    jsDot a &&
      (markerChar m1 ||
        (match rest2 with
         | m2 :: rest3 =>
           jsDot m1 &&
             (markerChar m2 ||
               (match rest3 with
                | m3 :: _ => jsDot m2 && markerChar m3
                | [] => false))
         | [] => false))
  | _ => false

/-- Case-insensitive `startsWith` (the pattern is lowercase ASCII; the
haystack characters are lowered before comparison, matching the `i` flag). -/
def startsWithCI : List Char → List Char → Bool
  | [], _ => true
  | _ :: _, [] => false
  | p :: ps, c :: cs => p = jsLower c && startsWithCI ps cs

/-- The test `/第.{1,3}[章节卷篇]|chapter|section|part/i.test(line)`: some suffix of
the line starts with one of the four alternatives (the word alternatives
case-insensitively). -/
def chapterRegexTest : List Char → Bool
  | [] => false
  | c :: rest =>
    (c = '第' && diTail rest) ||
    startsWithCI ("chapter".toList) (c :: rest) ||
    startsWithCI ("section".toList) (c :: rest) ||
    startsWithCI ("part".toList) (c :: rest) ||
    chapterRegexTest rest

/-- The line classifier from the reader's chapter-detection loop:
`(line.length < 30 && line.length > 0) && (line.toUpperCase() === line ||
regex.test(line))` where `line` is the trimmed raw line. -/
def isChapterHeading (rawLine : List Char) : Bool :=
  let line := jsTrim rawLine
  (decide (line.length < 30) && decide (line.length > 0)) &&
  (line.map jsUpper = line || chapterRegexTest line)

/-- The chapter-detection loop: walk the lines in order, collecting
`{title: trimmedLine, position: i}` for each detected heading. -/
def detectChaptersFrom (i : Nat) : List (List Char) → List (List Char × Nat)
  | [] => []
  | l :: ls =>
    if isChapterHeading l then
      (jsTrim l, i) :: detectChaptersFrom (i + 1) ls
    else
      detectChaptersFrom (i + 1) ls

/-- Chapter detection over the whole text, zero-based line indices. -/
def detectChapters (lines : List (List Char)) : List (List Char × Nat) :=
  detectChaptersFrom 0 lines

/-! Data model (`Book` interface, `src/app/(tabs)/index.tsx`) -/

/-- A highlight attached to a book (`BookHighlight`).  JS `Date` values are
embedded as natural-number timestamps. -/
structure BookHighlight where
  id : String
  text : String
  position : Nat
  chapter : Option Nat := none
  createdAt : Nat := 0
  note : Option String := none
deriving DecidableEq, Repr

/-- A bookmark attached to a book (`BookBookmark`). -/
structure BookBookmark where
  id : String
  position : Nat
  chapter : Option Nat := none
  createdAt : Nat := 0
  note : Option String := none
deriving DecidableEq, Repr

/-- The catalog record (`Book`). -/
structure Book where
  id : String
  title : String
  author : Option String := none
  filePath : String
  fileType : String
  coverUrl : Option String := none
  lastRead : Option Nat := none
  lastPage : Option Nat := none
  totalPages : Option Nat := none
  chapterIndex : Option Nat := none
  highlights : Option (List BookHighlight) := none
  bookmarks : Option (List BookBookmark) := none
deriving DecidableEq, Repr

/-! Environment

`BookStorage` talks to `AsyncStorage` (one key, `books_data`) and to the
Expo filesystem.  Both are embedded as explicit state: the key-value entry
as an inductive describing what a read of the key yields, the filesystem
as a record of responses to the individual calls the module makes.  Every
`async` function that can `throw` returns an `Except`. -/

/-- What reading the `books_data` key yields: the read itself throws
(`readError`), the key is absent (`getItem` returned `null`), the stored
string does not parse (`JSON.parse` throws, `corrupt`), or it parses to a
list of records (`val`). -/
inductive KVState where
  | readError
  | absent
  | corrupt
  | val (bs : List Book)
deriving DecidableEq, Repr

/-- Error kinds thrown by the embedded operations. -/
inductive OpErr where
  | initFailed
  | copyFailed
  | fileNotReadable
  | storageRead
  | storageWrite
  | recordNotFound
  | contentRead
deriving DecidableEq, Repr

/-- Filesystem responses: each field answers one Expo `FileSystem` call.
`readUtf8 p = some c` means `readAsStringAsync(p, UTF8)` returns `c`,
`none` means it throws; `readBase64` is the Base64 read composed with the
`Buffer` UTF-8 decode; `readable` is the outcome of the `isFileReadable`
probe; `writeOk`/`copyOk`/`deleteOk` tell whether `writeAsStringAsync`,
`copyAsync` and `deleteAsync` succeed; `initOk` whether `initialize`
(directory probe / creation) succeeds. -/
structure FS where
  initOk : Bool
  readUtf8 : String → Option String
  readBase64 : String → Option String
  writeOk : String → Bool
  copyOk : String → String → Bool
  readable : String → Bool
  deleteOk : String → Bool

/-- The full mutable world an operation sees: the filesystem, the
`books_data` entry, whether `AsyncStorage.setItem` succeeds, and the
module-level `contentCache` (path to cached decoded text). -/
structure World where
  fs : FS
  kv : KVState
  kvWriteOk : Bool
  cache : String → Option String

/-! BookStorage operations (`src/services/BookStorage.ts`) -/

/-- The body of `getAllBooks` before its `catch`: `getItem` may throw,
`null` becomes `[]`, `JSON.parse` may throw, otherwise the parsed list. -/
def getAllBooksE : KVState → Except OpErr (List Book)
  | .readError => .error .storageRead
  | .absent => .ok []
  | .corrupt => .error .storageRead
  | .val bs => .ok bs

/-- Operation `getAllBooks`: any failure is caught, logged and turned into `[]`. -/
def getAllBooks (kv : KVState) : List Book :=
  match getAllBooksE kv with
  | .ok bs => bs
  | .error _ => []

/-- Operation `saveBooks`: `setItem` with the serialized list; a failing write throws
(`StorageWriteError`) and leaves the stored entry unchanged. -/
def saveBooks (w : World) (books : List Book) : Except OpErr World :=
  if w.kvWriteOk then .ok { w with kv := .val books } else .error .storageWrite

/-- Extension selection in `addBook`: MIME sniffing by `includes`, falling
back to the lower-cased last `.`-separated piece of the URI (empty when
the URI has no `.`). -/
def extFor (book : Book) (fileUri : String) : String :=
  if includesStr book.fileType "text/plain" then "txt"
  else if includesStr book.fileType "application/pdf" then "pdf"
  else if includesStr book.fileType "application/epub+zip" then "epub"
  else
    let uriParts := splitDot fileUri.toList
    if uriParts.length > 1 then
      String.mk ((uriParts.getLast!).map jsLower)
    else ""

/-- The path `BOOKS_DIR + localFileName` where `localFileName = id + "." + ext` and
`BOOKS_DIR = documentDirectory + "books/"`.  The platform document
directory is a parameter. -/
def localPathFor (docDir : String) (book : Book) (fileUri : String) : String :=
  docDir ++ "books/" ++ book.id ++ "." ++ extFor book fileUri

/-- Result of `addBook`: the thrown-or-returned value plus the world after
the call (the world can change even when the call throws — e.g. the cache
insert happens before the write). -/
structure AddOutcome where
  result : Except OpErr Book
  world : World

/-- The materialization step of `addBook` (the copy block): text files go
through a UTF-8 read, a cache insert and a UTF-8 write, and any failure of
the read or the write falls back to a raw `copyAsync`; other files are
raw-copied.  Returns the error (if the step threw) and the world after the
step — the cache insert survives even when the subsequent write fails. -/
def materialize (w : World) (fileUri localFilePath fileExt : String) :
    Option OpErr × World :=
  if fileExt = "txt" then
    match w.fs.readUtf8 fileUri with
    | some content =>
      let w1 := { w with
        cache := fun q => if q = localFilePath then some content else w.cache q }
      if w.fs.writeOk localFilePath then (none, w1)
      else if w.fs.copyOk fileUri localFilePath then (none, w1)
      else (some .copyFailed, w1)
    | none =>
      if w.fs.copyOk fileUri localFilePath then (none, w)
      else (some .copyFailed, w)
  else
    if w.fs.copyOk fileUri localFilePath then (none, w)
    else (some .copyFailed, w)

/-- Operation `addBook(book, fileUri)`: ensure the directory, pick an extension,
materialize the file at `BOOKS_DIR/id.ext`, probe readability (throwing
`FileNotReadableError` when the probe fails), then append the record with
its `filePath` rewritten to the materialized path and persist. -/
def addBook (docDir : String) (w : World) (book : Book) (fileUri : String) :
    AddOutcome :=
  if w.fs.initOk then
    let fileExt := extFor book fileUri
    let localFilePath := docDir ++ "books/" ++ book.id ++ "." ++ fileExt
    match materialize w fileUri localFilePath fileExt with
    | (some e, w1) => ⟨.error e, w1⟩
    | (none, w1) =>
      if w.fs.readable localFilePath then
        let updatedBook := { book with filePath := localFilePath }
        let books := getAllBooks w1.kv
        match saveBooks w1 (books ++ [updatedBook]) with
        | .ok w2 => ⟨.ok updatedBook, w2⟩
        | .error e => ⟨.error e, w1⟩
      else ⟨.error .fileNotReadable, w1⟩
  else ⟨.error .initFailed, w⟩

/-- Result of `readBookContent`: the thrown-or-returned value, the cache
after the call, and how many filesystem reads were performed. -/
structure ReadOutcome where
  result : Except OpErr String
  cache : String → Option String
  ioReads : Nat

/-- Operation `readBookContent(filePath, fileType)`: a truthy cache entry is returned
with no I/O; plain text is read as UTF-8, falling back to a Base64
read + decode, and cached; PDF / EPUB yield fixed placeholders; any other
type yields the initial empty string. -/
def readBookContent (fs : FS) (cache : String → Option String)
    (filePath fileType : String) : ReadOutcome :=
  let hit :=
    match cache filePath with
    | some c => if c = "" then none else some c
    | none => none
  match hit with
  | some c => ⟨.ok c, cache, 0⟩
  | none =>
    if includesStr fileType "text/plain" then
      match fs.readUtf8 filePath with
      | some content =>
        ⟨.ok content, fun q => if q = filePath then some content else cache q, 1⟩
      | none =>
        match fs.readBase64 filePath with
        | some content =>
          ⟨.ok content, fun q => if q = filePath then some content else cache q, 2⟩
        | none => ⟨.error .contentRead, cache, 2⟩
    else if includesStr fileType "application/pdf" then
      ⟨.ok "PDF文件需要特殊查看器，暂不支持", cache, 0⟩
    else if includesStr fileType "application/epub+zip" then
      ⟨.ok "EPUB文件需要特殊解析器，暂不支持", cache, 0⟩
    else
      ⟨.ok "", cache, 0⟩

/-- Embedding of `books.findIndex(b => b.id === id)` followed by `books[index] = upd`:
replace the first record whose `id` matches, `none` when there is none. -/
def replaceById (upd : Book) : List Book → Option (List Book)
  | [] => none
  | b :: bs =>
    if b.id = upd.id then some (upd :: bs)
    else (replaceById upd bs).map (b :: ·)

/-- Operation `updateBook(updatedBook)`: replace the record with matching `id` and
persist; throw `RecordNotFoundError` when the `id` is unknown. -/
def updateBook (w : World) (upd : Book) : Except OpErr Unit × World :=
  match replaceById upd (getAllBooks w.kv) with
  | some books2 =>
    match saveBooks w books2 with
    | .ok w2 => (.ok (), w2)
    | .error e => (.error e, w)
  | none => (.error .recordNotFound, w)

/-- Operation `deleteBook(bookId)`: when a record matches, best-effort delete its file
(the attempt's outcome is logged and otherwise ignored), filter the record
out and persist; when none matches, return without touching anything. -/
def deleteBook (w : World) (bookId : String) : Except OpErr Unit × World :=
  let books := getAllBooks w.kv
  match books.find? (fun b => b.id = bookId) with
  | some bookToDelete =>
    let _fileDeleted := w.fs.deleteOk bookToDelete.filePath
    let updatedBooks := books.filter (fun b => !(b.id = bookId))
    match saveBooks w updatedBooks with
    | .ok w2 => (.ok (), w2)
    | .error e => (.error e, w)
  | none => (.ok (), w)

/-- Condition for control inside `addBook` to reach the readability probe:
`initialize` succeeded and the materialization step did not throw (for text
files the UTF-8 write or the fallback copy succeeded; otherwise the copy
succeeded). -/
def materializeReachesProbe (fs : FS) (fileUri localFilePath fileExt : String) :
    Bool :=
  fs.initOk &&
  (if fileExt = "txt" then
    match fs.readUtf8 fileUri with
    | some _ => fs.writeOk localFilePath || fs.copyOk fileUri localFilePath
    | none => fs.copyOk fileUri localFilePath
  else fs.copyOk fileUri localFilePath)

/-! Concrete environments used to exercise the theorems -/

/-- A filesystem on which every call fails (directory creation aside). -/
def fsNone : FS :=
  { initOk := true
    readUtf8 := fun _ => none
    readBase64 := fun _ => none
    writeOk := fun _ => false
    copyOk := fun _ _ => false
    readable := fun _ => false
    deleteOk := fun _ => false }

/-- A filesystem whose UTF-8 reads yield the empty string. -/
def fsEmptyText : FS := { fsNone with readUtf8 := fun _ => some "" }

/-- A filesystem whose UTF-8 reads yield `"hello"`. -/
def fsHello : FS := { fsNone with readUtf8 := fun _ => some "hello" }

/-- A filesystem where copies succeed but the readability probe fails. -/
def fsProbe : FS := { fsNone with copyOk := fun _ _ => true }

/-- A filesystem where copies and probes succeed. -/
def fsOk : FS :=
  { fsNone with copyOk := fun _ _ => true, readable := fun _ => true }

/-- A catalog record with id `"a"`. -/
def bA : Book :=
  { id := "a", title := "A", filePath := "d/books/a.txt", fileType := "text/plain" }

/-- Record `bA` with a changed title (same id), used to drive `updateBook`. -/
def updA : Book := { bA with title := "A2" }

/-- A record with an id absent from the one-record catalog. -/
def updB : Book := { bA with id := "zzz" }

/-- A fresh record to import. -/
def bNew : Book :=
  { id := "b", title := "B", filePath := "src", fileType := "text/plain" }

/-- A record with an unrecognized MIME type. -/
def bBin : Book :=
  { id := "b1", title := "B1", filePath := "orig",
    fileType := "application/octet-stream" }

/-- A world holding the one-record catalog `[bA]` over `fsNone`. -/
def w5 : World :=
  { fs := fsNone, kv := .val [bA], kvWriteOk := true, cache := fun _ => none }

/-- Like `w5` but copies succeed and the probe fails. -/
def wProbe : World := { w5 with fs := fsProbe }

/-- Like `w5` but copies and probes succeed. -/
def wOk : World := { w5 with fs := fsOk }

/-! Helper lemmas -/

/-- The materialization step never touches the stored catalog entry, the
key-value write capability or the filesystem — it can only write the file
and mutate the cache. -/
theorem materialize_snd (w : World) (uri lp ext : String) :
    ((materialize w uri lp ext).2).kv = w.kv ∧
    ((materialize w uri lp ext).2).kvWriteOk = w.kvWriteOk ∧
    ((materialize w uri lp ext).2).fs = w.fs := by
  unfold materialize
  by_cases he : ext = "txt"
  · simp only [he, if_true]
    cases hu : w.fs.readUtf8 uri <;> simp only [hu] <;> split_ifs <;> simp
  · simp only [he, if_false]
    split_ifs <;> simp

/-- When the materialization step is bound to succeed (for text files the
UTF-8 write or the fallback copy succeeds, otherwise the copy succeeds), it
reports no error. -/
theorem materialize_fst_none (w : World) (uri lp ext : String)
    (h : materializeReachesProbe w.fs uri lp ext = true) :
    (materialize w uri lp ext).1 = none := by
  unfold materializeReachesProbe at h
  rw [Bool.and_eq_true] at h
  obtain ⟨-, h⟩ := h
  unfold materialize
  by_cases he : ext = "txt"
  · simp only [he, if_true] at h ⊢
    cases hu : w.fs.readUtf8 uri
    · rw [hu] at h
      simp at h
      simp [hu, h]
    · rw [hu] at h
      simp at h
      rcases h with h1 | h1 <;> simp [hu, h1]
  · simp only [he, if_false] at h ⊢
    simp [h]

/-- The stored catalog entry after `addBook` is either untouched (the call
threw before the save, or the save itself failed) or the old collection
with the rewritten record appended. -/
theorem addBook_kv_cases (docDir : String) (w : World) (book : Book)
    (fileUri : String) :
    (addBook docDir w book fileUri).world.kv = w.kv ∨
    (addBook docDir w book fileUri).world.kv =
      .val (getAllBooks w.kv ++
        [{ book with filePath := localPathFor docDir book fileUri }]) := by
  cases hi : w.fs.initOk
  · left
    simp [addBook, hi]
  · have hsnd := materialize_snd w fileUri
      (docDir ++ "books/" ++ book.id ++ "." ++ extFor book fileUri)
      (extFor book fileUri)
    rcases hm : materialize w fileUri
        (docDir ++ "books/" ++ book.id ++ "." ++ extFor book fileUri)
        (extFor book fileUri) with ⟨o, w1⟩
    rw [hm] at hsnd
    obtain ⟨hkv, hwk, -⟩ := hsnd
    replace hkv : w1.kv = w.kv := hkv
    replace hwk : w1.kvWriteOk = w.kvWriteOk := hwk
    cases o with
    | some e =>
      left
      simp [addBook, hi, hm, hkv]
    | none =>
      cases hr : w.fs.readable
        (docDir ++ "books/" ++ book.id ++ "." ++ extFor book fileUri)
      · left
        simp [addBook, hi, hm, hr, hkv]
      · cases hwrite : w.kvWriteOk
        · left
          simp [addBook, saveBooks, hi, hm, hr, hwk, hwrite, hkv]
        · right
          simp [addBook, saveBooks, hi, hm, hr, hwk, hwrite, hkv,
            localPathFor]

/-- Reading back a well-formed stored catalog returns it verbatim. -/
theorem getAllBooks_val (bs : List Book) : getAllBooks (KVState.val bs) = bs :=
  rfl

/-- The search `replaceById` finds nothing exactly when no record has the id. -/
theorem replaceById_none_iff (u : Book) (bs : List Book) :
    replaceById u bs = none ↔ ∀ b ∈ bs, b.id ≠ u.id := by
  induction bs with
  | nil => simp [replaceById]
  | cons b bs ih =>
    by_cases h : b.id = u.id
    · simp [replaceById, h]
    · simp [replaceById, h, ih, Option.map_eq_none']

/-- Decomposition of a successful `replaceById`: the catalog splits around
the first record whose id matches, and exactly that record is replaced. -/
theorem replaceById_some_decomp (u : Book) (bs bs2 : List Book)
    (h : replaceById u bs = some bs2) :
    ∃ pre old post, bs = pre ++ old :: post ∧ bs2 = pre ++ u :: post ∧
      old.id = u.id ∧ ∀ b ∈ pre, b.id ≠ u.id := by
  induction bs generalizing bs2 with
  | nil => simp [replaceById] at h
  | cons b bs ih =>
    by_cases hb : b.id = u.id
    · simp only [replaceById, hb, if_true, Option.some.injEq] at h
      exact ⟨[], b, bs, by simp, by simp [h], hb, by simp⟩
    · simp only [replaceById, hb, if_false, Option.map_eq_some'] at h
      obtain ⟨a, ha, rfl⟩ := h
      obtain ⟨pre, old, post, h1, h2, h3, h4⟩ := ih a ha
      refine ⟨b :: pre, old, post, by simp [h1], by simp [h2], h3, ?_⟩
      intro x hx
      rcases List.mem_cons.mp hx with rfl | hx
      · exact hb
      · exact h4 x hx

/-- Replacing a record by id leaves the id sequence unchanged. -/
theorem replaceById_map_id (u : Book) (bs bs2 : List Book)
    (h : replaceById u bs = some bs2) :
    bs2.map Book.id = bs.map Book.id := by
  obtain ⟨pre, old, post, rfl, rfl, h3, -⟩ := replaceById_some_decomp u bs bs2 h
  simp [h3]

/-- Applying `split('.')` to a dot-free list is the singleton of the whole list. -/
theorem splitDot_no_dot (l : List Char) (h : '.' ∉ l) : splitDot l = [l] := by
  induction l with
  | nil => rfl
  | cons c cs ih =>
    rw [List.mem_cons, not_or] at h
    have hc : ¬c = '.' := fun hcc => h.1 hcc.symm
    simp [splitDot, ih h.2, hc]

/-- The chapter-detection loop from index `i` collects exactly the heading
lines, paired with their indices, in order. -/
theorem detectChaptersFrom_eq (i : Nat) (ls : List (List Char)) :
    detectChaptersFrom i ls =
      ((List.enumFrom i ls).filter fun p => isChapterHeading p.2).map
        fun p => (jsTrim p.2, p.1) := by
  induction ls generalizing i with
  | nil => rfl
  | cons l ls ih =>
    cases h : isChapterHeading l
    · simp [detectChaptersFrom, List.enumFrom, h, ih]
    · simp [detectChaptersFrom, List.enumFrom, h, ih]

/-! Claims -/

/-- Claim C3: a line is detected as a chapter heading iff its trimmed
length is strictly between 0 and 30 and (the trimmed line equals its
upper-cased form or it matches `第.{1,3}[章节卷篇]|chapter|section|part`
case-insensitively); headings are collected in line order with their
zero-based indices, and on the sample text
`"CHAPTER ONE\nSome body text ...\n第一章 开始"` exactly the headings at
line indices 0 and 2 are detected. -/
theorem chapter_detection_characterization :
    (∀ lines, detectChapters lines =
      ((lines.enum.filter fun p => isChapterHeading p.2).map
        fun p => (jsTrim p.2, p.1))) ∧
    (∀ l, isChapterHeading l =
      ((decide (0 < (jsTrim l).length) && decide ((jsTrim l).length < 30)) &&
        ((jsTrim l).map jsUpper = jsTrim l || chapterRegexTest (jsTrim l)))) ∧
    ((detectChapters (splitNl
        ("CHAPTER ONE\nSome body text that is long enough to not qualify as a heading line here\n第一章 开始").toList)).map
      Prod.snd = [0, 2]) := by
  refine ⟨?_, ?_, by decide⟩
  · intro lines
    rw [detectChapters, detectChaptersFrom_eq, List.enum]
  · intro l
    rw [isChapterHeading]
    rw [Bool.and_comm (decide ((jsTrim l).length < 30))
      (decide ((jsTrim l).length > 0))]

/-- Claim C6: `getAllBooks` never throws — it returns the persisted
collection verbatim (insertion order) when the stored value parses, and
the empty collection when the key is absent, the read throws or the stored
value is corrupt, even though the underlying read fails in the latter two
states. -/
theorem getAllBooks_total_characterization :
    (∀ bs, getAllBooks (KVState.val bs) = bs) ∧
    getAllBooks .absent = [] ∧
    getAllBooks .readError = [] ∧
    getAllBooks .corrupt = [] ∧
    getAllBooksE .readError = .error .storageRead ∧
    getAllBooksE .corrupt = .error .storageRead :=
  ⟨fun _ => rfl, rfl, rfl, rfl, rfl, rfl⟩

/-- Claim C8 as stated is false: `readBookContent` consults the content
cache before looking at the file type, so a PDF-typed read of a path with
a non-empty cached entry returns the cached text, not the fixed
placeholder. -/
theorem pdf_read_cached_counterexample :
    (readBookContent fsNone (fun p => if p = "b.pdf" then some "hello" else none)
        "b.pdf" "application/pdf").result = .ok "hello" ∧
    ("hello" : String) ≠ "PDF文件需要特殊查看器，暂不支持" := by
  exact ⟨rfl, by decide⟩

/-- Claim C8, amended: for every path whose cache entry is absent or empty,
a read with fileType `application/pdf` returns the fixed PDF placeholder
with no I/O and without throwing, an `application/epub+zip` read returns
the fixed EPUB placeholder, and a read whose fileType contains none of the
three recognized types returns empty text. -/
theorem pdf_epub_placeholder_reads (fs : FS) (cache : String → Option String)
    (path : String)
    (hc : cache path = none ∨ cache path = some "") :
    (readBookContent fs cache path "application/pdf").result =
      .ok "PDF文件需要特殊查看器，暂不支持" ∧
    (readBookContent fs cache path "application/pdf").ioReads = 0 ∧
    (readBookContent fs cache path "application/epub+zip").result =
      .ok "EPUB文件需要特殊解析器，暂不支持" ∧
    (readBookContent fs cache path "application/epub+zip").ioReads = 0 ∧
    (∀ ft, includesStr ft "text/plain" = false →
      includesStr ft "application/pdf" = false →
      includesStr ft "application/epub+zip" = false →
      (readBookContent fs cache path ft).result = .ok "" ∧
      (readBookContent fs cache path ft).ioReads = 0) := by
  have hpdf1 : includesStr "application/pdf" "text/plain" = false := by decide
  have hpdf2 : includesStr "application/pdf" "application/pdf" = true := by decide
  have hep1 : includesStr "application/epub+zip" "text/plain" = false := by decide
  have hep2 : includesStr "application/epub+zip" "application/pdf" = false := by
    decide
  have hep3 : includesStr "application/epub+zip" "application/epub+zip" = true := by
    decide
  rcases hc with hc | hc
  · refine ⟨?_, ?_, ?_, ?_, ?_⟩ <;>
      try simp [readBookContent, hc, hpdf1, hpdf2, hep1, hep2, hep3]
    intro ft h1 h2 h3
    simp [readBookContent, hc, h1, h2, h3]
  · refine ⟨?_, ?_, ?_, ?_, ?_⟩ <;>
      try simp [readBookContent, hc, hpdf1, hpdf2, hep1, hep2, hep3]
    intro ft h1 h2 h3
    simp [readBookContent, hc, h1, h2, h3]

/-- Witness for the amended C8 at a concrete input. -/
theorem pdf_epub_placeholder_reads_witness :
    (readBookContent fsNone (fun _ => none) "p" "application/pdf").result =
      .ok "PDF文件需要特殊查看器，暂不支持" ∧
    (readBookContent fsNone (fun _ => none) "p" "application/epub+zip").result =
      .ok "EPUB文件需要特殊解析器，暂不支持" ∧
    (readBookContent fsNone (fun _ => none) "p"
      "application/octet-stream").result = .ok "" := by
  have h := pdf_epub_placeholder_reads fsNone (fun _ => none) "p" (Or.inl rfl)
  exact ⟨h.1, h.2.2.1,
    (h.2.2.2.2 "application/octet-stream" (by decide) (by decide) (by decide)).1⟩

/-- Claim C9: a cached empty string is never served as a cache hit — when
the decoded content of a plain-text path is empty, every read of that path
(whose cache entry for the path is absent or the cached empty string)
performs filesystem I/O and returns the empty text. -/
theorem empty_cached_text_rereads (fs : FS) (cache : String → Option String)
    (path ft : String)
    (hft : includesStr ft "text/plain" = true)
    (hc : cache path = none ∨ cache path = some "")
    (hdec : fs.readUtf8 path = some "" ∨
      (fs.readUtf8 path = none ∧ fs.readBase64 path = some "")) :
    (readBookContent fs cache path ft).result = .ok "" ∧
    1 ≤ (readBookContent fs cache path ft).ioReads := by
  rcases hdec with hu | ⟨hu, hb⟩
  · rcases hc with hc | hc <;> simp [readBookContent, hc, hft, hu]
  · rcases hc with hc | hc <;> simp [readBookContent, hc, hft, hu, hb]

/-- Witness for C9 at a concrete input. -/
theorem empty_cached_text_rereads_witness :
    (readBookContent fsEmptyText (fun _ => none) "a.txt" "text/plain").result =
      .ok "" ∧
    1 ≤ (readBookContent fsEmptyText (fun _ => none) "a.txt" "text/plain").ioReads :=
  empty_cached_text_rereads fsEmptyText (fun _ => none) "a.txt" "text/plain"
    (by decide) (Or.inl rfl) (Or.inl rfl)

/-- Claim C4 as stated is false: when the first successful read yields the
empty string, the cached value is falsy, so the second read of the same
path performs filesystem I/O again (the text is still identical — only the
no-I/O part fails). -/
theorem second_read_io_counterexample :
    (readBookContent fsEmptyText (fun _ => none) "a.txt" "text/plain").result =
      .ok "" ∧
    (readBookContent fsEmptyText
        (readBookContent fsEmptyText (fun _ => none) "a.txt" "text/plain").cache
        "a.txt" "text/plain").result = .ok "" ∧
    (readBookContent fsEmptyText
        (readBookContent fsEmptyText (fun _ => none) "a.txt" "text/plain").cache
        "a.txt" "text/plain").ioReads ≠ 0 := by
  refine ⟨rfl, rfl, by decide⟩

/-- Claim C4, amended: after one successful plain-text `readBookContent`
call on a path whose result is non-empty, a second call on the same path
returns the identical text and performs no filesystem I/O. -/
theorem second_read_cache_hit (fs : FS) (cache : String → Option String)
    (path ft t : String)
    (hft : includesStr ft "text/plain" = true)
    (h1 : (readBookContent fs cache path ft).result = .ok t)
    (hne : t ≠ "") :
    (readBookContent fs (readBookContent fs cache path ft).cache path ft).result
      = .ok t ∧
    (readBookContent fs (readBookContent fs cache path ft).cache path ft).ioReads
      = 0 := by
  rcases hcp : cache path with _ | c
  · rcases hu : fs.readUtf8 path with _ | content
    · rcases hb : fs.readBase64 path with _ | content
      · simp [readBookContent, hcp, hft, hu, hb] at h1
      · have ht : content = t := by
          simpa [readBookContent, hcp, hft, hu, hb] using h1
        subst ht
        simp [readBookContent, hcp, hft, hu, hb, hne]
    · have ht : content = t := by
        simpa [readBookContent, hcp, hft, hu] using h1
      subst ht
      simp [readBookContent, hcp, hft, hu, hne]
  · by_cases hce : c = ""
    · subst hce
      rcases hu : fs.readUtf8 path with _ | content
      · rcases hb : fs.readBase64 path with _ | content
        · simp [readBookContent, hcp, hft, hu, hb] at h1
        · have ht : content = t := by
            simpa [readBookContent, hcp, hft, hu, hb] using h1
          subst ht
          simp [readBookContent, hcp, hft, hu, hb, hne]
      · have ht : content = t := by
          simpa [readBookContent, hcp, hft, hu] using h1
        subst ht
        simp [readBookContent, hcp, hft, hu, hne]
    · have ht : c = t := by
        simpa [readBookContent, hcp, hce] using h1
      subst ht
      simp [readBookContent, hcp, hce]

/-- Witness for the amended C4 at a concrete input. -/
theorem second_read_cache_hit_witness :
    (readBookContent fsHello
        (readBookContent fsHello (fun _ => none) "a.txt" "text/plain").cache
        "a.txt" "text/plain").result = .ok "hello" ∧
    (readBookContent fsHello
        (readBookContent fsHello (fun _ => none) "a.txt" "text/plain").cache
        "a.txt" "text/plain").ioReads = 0 :=
  second_read_cache_hit fsHello (fun _ => none) "a.txt" "text/plain" "hello"
    (by decide) rfl (by decide)

/-- Claim C1: if `addBook` reaches the readability probe on the
materialized file and the probe fails, the call throws
`FileNotReadableError` and the persisted catalog is exactly what it was
before the call. -/
theorem addBook_unreadable_aborts (docDir : String) (w : World) (book : Book)
    (fileUri : String)
    (hmat : materializeReachesProbe w.fs fileUri
      (localPathFor docDir book fileUri) (extFor book fileUri) = true)
    (hprobe : w.fs.readable (localPathFor docDir book fileUri) = false) :
    (addBook docDir w book fileUri).result = .error .fileNotReadable ∧
    (addBook docDir w book fileUri).world.kv = w.kv ∧
    getAllBooks (addBook docDir w book fileUri).world.kv =
      getAllBooks w.kv := by
  have hinit : w.fs.initOk = true := by
    have h := hmat
    unfold materializeReachesProbe at h
    rw [Bool.and_eq_true] at h
    exact h.1
  simp only [localPathFor] at hmat hprobe
  have hn := materialize_fst_none w fileUri
    (docDir ++ "books/" ++ book.id ++ "." ++ extFor book fileUri)
    (extFor book fileUri) hmat
  have hsnd := materialize_snd w fileUri
    (docDir ++ "books/" ++ book.id ++ "." ++ extFor book fileUri)
    (extFor book fileUri)
  rcases hm : materialize w fileUri
      (docDir ++ "books/" ++ book.id ++ "." ++ extFor book fileUri)
      (extFor book fileUri) with ⟨o, w1⟩
  rw [hm] at hn hsnd
  replace hn : o = none := hn
  subst hn
  replace hsnd : w1.kv = w.kv := hsnd.1
  simp [addBook, hinit, hm, hprobe, hsnd]

/-- Witness for C1 at a concrete input: copies succeed, the probe fails. -/
theorem addBook_unreadable_aborts_witness :
    (addBook "d/" wProbe bNew "u").result = .error .fileNotReadable ∧
    (addBook "d/" wProbe bNew "u").world.kv = wProbe.kv ∧
    getAllBooks (addBook "d/" wProbe bNew "u").world.kv =
      getAllBooks wProbe.kv :=
  addBook_unreadable_aborts "d/" wProbe bNew "u" (by decide) (by decide)

/-- Claim C2: assuming the ids in the catalog are pairwise distinct and the
id handed to `addBook` is fresh, each of `addBook`, `updateBook` and
`deleteBook` (with `saveBooks` as used by them) leaves the persisted
collection with pairwise distinct ids. -/
theorem catalog_id_uniqueness_preserved (docDir : String) (w : World)
    (book : Book) (fileUri : String) (upd : Book) (did : String)
    (hnd : ((getAllBooks w.kv).map Book.id).Nodup)
    (hfresh : book.id ∉ (getAllBooks w.kv).map Book.id) :
    ((getAllBooks (addBook docDir w book fileUri).world.kv).map Book.id).Nodup ∧
    ((getAllBooks (updateBook w upd).2.kv).map Book.id).Nodup ∧
    ((getAllBooks (deleteBook w did).2.kv).map Book.id).Nodup := by
  refine ⟨?_, ?_, ?_⟩
  · rcases addBook_kv_cases docDir w book fileUri with h | h
    · rw [h]; exact hnd
    · rw [h, getAllBooks_val]
      simp [List.nodup_append, hnd, hfresh]
  · rcases hr : replaceById upd (getAllBooks w.kv) with _ | bs2
    · simpa [updateBook, hr] using hnd
    · cases hwk : w.kvWriteOk
      · simpa [updateBook, saveBooks, hr, hwk] using hnd
      · have hid := replaceById_map_id upd _ _ hr
        simpa [updateBook, saveBooks, hr, hwk, getAllBooks_val, hid] using hnd
  · rcases hf : (getAllBooks w.kv).find? (fun b => b.id = did) with _ | b
    · simpa [deleteBook, hf] using hnd
    · cases hwk : w.kvWriteOk
      · simpa [deleteBook, saveBooks, hf, hwk] using hnd
      · simp only [deleteBook, saveBooks, hf, hwk, if_true, getAllBooks_val]
        exact List.Nodup.sublist
          ((List.filter_sublist (getAllBooks w.kv)).map Book.id) hnd

/-- Witness for C2 at a concrete catalog. -/
theorem catalog_id_uniqueness_preserved_witness :
    ((getAllBooks (addBook "d/" w5 bNew "u").world.kv).map Book.id).Nodup ∧
    ((getAllBooks (updateBook w5 updA).2.kv).map Book.id).Nodup ∧
    ((getAllBooks (deleteBook w5 "a").2.kv).map Book.id).Nodup :=
  catalog_id_uniqueness_preserved "d/" w5 bNew "u" updA "a" (by decide)
    (by decide)

/-- Claim C5: when no record's id matches, `updateBook` throws
`RecordNotFoundError` and the persisted collection is unchanged; when some
record's id matches, it replaces exactly the first matching record in
place. -/
theorem updateBook_replace_or_not_found (w : World) (upd : Book)
    (hw : w.kvWriteOk = true) :
    ((∀ b ∈ getAllBooks w.kv, b.id ≠ upd.id) →
      (updateBook w upd).1 = .error .recordNotFound ∧
      getAllBooks (updateBook w upd).2.kv = getAllBooks w.kv) ∧
    ((∃ b ∈ getAllBooks w.kv, b.id = upd.id) →
      (updateBook w upd).1 = .ok () ∧
      ∃ pre old post,
        getAllBooks w.kv = pre ++ old :: post ∧ old.id = upd.id ∧
        (∀ b ∈ pre, b.id ≠ upd.id) ∧
        getAllBooks (updateBook w upd).2.kv = pre ++ upd :: post) := by
  constructor
  · intro hnone
    have h := (replaceById_none_iff upd (getAllBooks w.kv)).mpr hnone
    simp [updateBook, h]
  · rintro ⟨b, hb, hid⟩
    rcases hr : replaceById upd (getAllBooks w.kv) with _ | bs2
    · exact absurd hid ((replaceById_none_iff upd _).mp hr b hb)
    · obtain ⟨pre, old, post, h1, h2, h3, h4⟩ :=
        replaceById_some_decomp upd _ _ hr
      refine ⟨by simp [updateBook, saveBooks, hr, hw], pre, old, post, h1, h3,
        h4, ?_⟩
      simp [updateBook, saveBooks, hr, hw, getAllBooks_val, h2]

/-- Witness for C5 at a concrete catalog: unknown id throws and leaves the
collection unchanged, known id succeeds. -/
theorem updateBook_replace_or_not_found_witness :
    (updateBook w5 updB).1 = .error .recordNotFound ∧
    getAllBooks (updateBook w5 updB).2.kv = getAllBooks w5.kv ∧
    (updateBook w5 updA).1 = .ok () := by
  have h1 := (updateBook_replace_or_not_found w5 updB rfl).1 (by decide)
  have h2 := (updateBook_replace_or_not_found w5 updA rfl).2
    ⟨bA, by decide, by decide⟩
  exact ⟨h1.1, h1.2, h2.1⟩

/-- Claim C7: `deleteBook` removes the matching record when present (even
when deleting the backing file fails — the outcome does not depend on the
file-deletion result) and is a successful no-op when absent. -/
theorem deleteBook_removes_or_noop (w : World) (bookId : String)
    (hw : w.kvWriteOk = true) :
    ((getAllBooks w.kv).find? (fun b => b.id = bookId) = none →
      (deleteBook w bookId).1 = .ok () ∧ (deleteBook w bookId).2 = w) ∧
    (∀ b, (getAllBooks w.kv).find? (fun b => b.id = bookId) = some b →
      (deleteBook w bookId).1 = .ok () ∧
      getAllBooks (deleteBook w bookId).2.kv =
        (getAllBooks w.kv).filter (fun x => !(x.id = bookId))) ∧
    (∀ g : String → Bool,
      (deleteBook { w with fs := { w.fs with deleteOk := g } } bookId).1 =
        (deleteBook w bookId).1 ∧
      (deleteBook { w with fs := { w.fs with deleteOk := g } } bookId).2.kv =
        (deleteBook w bookId).2.kv) := by
  refine ⟨?_, ?_, ?_⟩
  · intro h
    simp [deleteBook, h]
  · intro b hb
    simp [deleteBook, saveBooks, hb, hw, getAllBooks_val]
  · intro g
    rcases hf : (getAllBooks w.kv).find? (fun b => b.id = bookId) with _ | b <;>
      simp [deleteBook, saveBooks, hf, hw]

/-- Witness for C7 at a concrete catalog (note `w5`'s filesystem fails all
deletions, so the present-case removal happens despite a failed file
delete). -/
theorem deleteBook_removes_or_noop_witness :
    (deleteBook w5 "zzz").1 = .ok () ∧
    (deleteBook w5 "zzz").2 = w5 ∧
    (deleteBook w5 "a").1 = .ok () ∧
    getAllBooks (deleteBook w5 "a").2.kv = [] := by
  have h := deleteBook_removes_or_noop w5 "zzz" rfl
  have h2 := deleteBook_removes_or_noop w5 "a" rfl
  have hn := h.1 (by decide)
  have hs := h2.2.1 bA (by decide)
  refine ⟨hn.1, hn.2, hs.1, hs.2.trans (by decide)⟩

/-- Claim C10: when the fileType matches none of the three recognized MIME
types and the source location contains no `.`, the selected extension is
empty, the materialized path is `{books-dir}/{id}.` (trailing dot, empty
extension), and a successful `addBook` returns the record with exactly
that `filePath`. -/
theorem addBook_empty_extension_path (docDir : String) (w : World)
    (book : Book) (fileUri : String)
    (h1 : includesStr book.fileType "text/plain" = false)
    (h2 : includesStr book.fileType "application/pdf" = false)
    (h3 : includesStr book.fileType "application/epub+zip" = false)
    (hdot : '.' ∉ fileUri.toList)
    (hinit : w.fs.initOk = true)
    (hcopy : w.fs.copyOk fileUri (docDir ++ "books/" ++ book.id ++ ".") = true)
    (hread : w.fs.readable (docDir ++ "books/" ++ book.id ++ ".") = true)
    (hkvw : w.kvWriteOk = true) :
    extFor book fileUri = "" ∧
    localPathFor docDir book fileUri = docDir ++ "books/" ++ book.id ++ "." ∧
    (addBook docDir w book fileUri).result =
      .ok { book with filePath := docDir ++ "books/" ++ book.id ++ "." } := by
  have hext : extFor book fileUri = "" := by
    have hsd := splitDot_no_dot _ hdot
    simp only [String.toList] at hsd
    simp [extFor, h1, h2, h3, hsd]
  have happ : docDir ++ "books/" ++ book.id ++ "." ++ "" =
      docDir ++ "books/" ++ book.id ++ "." := by simp
  have hlp : localPathFor docDir book fileUri =
      docDir ++ "books/" ++ book.id ++ "." := by
    rw [localPathFor, hext, happ]
  refine ⟨hext, hlp, ?_⟩
  have htxt : ("" : String) ≠ "txt" := by decide
  simp [addBook, materialize, saveBooks, hinit, hext, happ, htxt, hcopy,
    hread, hkvw]

/-- Witness for C10 at a concrete input: an `application/octet-stream`
record imported from a dot-free URI lands at `d/books/b1.`. -/
theorem addBook_empty_extension_path_witness :
    extFor bBin "contentfile" = "" ∧
    localPathFor "d/" bBin "contentfile" = "d/books/b1." ∧
    (addBook "d/" wOk bBin "contentfile").result =
      .ok { bBin with filePath := "d/books/b1." } := by
  have h := addBook_empty_extension_path "d/" wOk bBin "contentfile"
    (by decide) (by decide) (by decide) (by decide) rfl rfl rfl rfl
  exact ⟨h.1, h.2.1.trans rfl, h.2.2.trans rfl⟩

end AudioBook
